import Mathlib

/-!
Verification of the AdWave test-tools result-parsing layer.

Shallow embedding of the transcript-parsing and verdict helpers of the
repository (`src/tests/creative_helpers.py`, `src/tests/campaign_helpers.py`,
`src/tests/registration_helpers.py`, `src/core/reporter.py`).  Transcripts are
modelled as lists of characters; Python `re` searches for the concrete
patterns used by the code are modelled by explicit left-to-right scans with
the same leftmost-match semantics.
-/

/-- Transcript text, modelled as a list of characters. -/
abbrev Str := List Char

/-- ASCII lowercasing of one character, as Python `str.lower` acts on ASCII. -/
def pyLower (c : Char) : Char :=
  if 'A' ≤ c ∧ c ≤ 'Z' then Char.ofNat (c.toNat + 32) else c

/-- Python `str.lower` on a transcript (ASCII range). -/
def strLower (s : Str) : Str := s.map pyLower

/-- Python whitespace class (`\s` / `str.strip`) restricted to ASCII. -/
def isWs (c : Char) : Bool :=
  c = ' ' || c = '\t' || c = '\n' || c = '\r' || c = '\x0b' || c = '\x0c'

/-- Substring test: `containsSub hay needle` is Python `needle in hay`. -/
def containsSub : Str → Str → Bool
  | [], needle => needle.isEmpty
  | c :: t, needle => needle.isPrefixOf (c :: t) || containsSub t needle

/-- Leftmost occurrence split: `splitFirst m s = some (b, a)` when `s = b ++ m ++ a`
with the occurrence of `m` leftmost; `none` when `m` does not occur in `s`. -/
def splitFirst : Str → Str → Option (Str × Str)
  | m, [] => if m.isEmpty then some ([], []) else none
  | m, c :: t =>
    if m.isPrefixOf (c :: t) then some ([], (c :: t).drop m.length)
    else
      match splitFirst m t with
      | some (b, a) => some (c :: b, a)
      | none => none

/-- Numeric value of a digit run, as Python `int` on the matched group. -/
def digitsToNat (ds : Str) : Nat :=
  ds.foldl (fun acc c => acc * 10 + (c.toNat - 48)) 0

/-- Model of `re.search(key + \s*(\d+), s)`: scan left to right for `key`
followed by optional whitespace and at least one digit; return the greedy
digit run's value, or `none` when no position matches. -/
def searchKeyNum (key : Str) : Str → Option Nat
  | [] => none
  | c :: t =>
    if key.isPrefixOf (c :: t) then
      let r := ((c :: t).drop key.length).dropWhile isWs
      match r with
      | d :: _ =>
        if d.isDigit then some (digitsToNat (r.takeWhile Char.isDigit))
        else searchKeyNum key t
      | [] => searchKeyNum key t
    else searchKeyNum key t

-- ---------------------------------------------------------------------------
-- src/tests/creative_helpers.py
-- ---------------------------------------------------------------------------

/-- The key of the before-count marker (`creative_count_before:`). -/
def kBefore : Str := "creative_count_before:".toList

/-- The key of the after-count marker (`creative_count_after:`). -/
def kAfter : Str := "creative_count_after:".toList

/-- Function `extract_creative_counts` of `creative_helpers.py`: lowercase the result,
search each count marker, and return `(-1, -1)`-style sentinels when absent. -/
def extract_creative_counts (result : Str) : Int × Int :=
  let low := strLower result
  let b : Int := match searchKeyNum kBefore low with
    | some n => (n : Int)
    | none => -1
  let a : Int := match searchKeyNum kAfter low with
    | some n => (n : Int)
    | none => -1
  (b, a)

/-- Function `verify_creative_upload` of `creative_helpers.py`: both counts must be
present (non-negative) and the after count strictly larger. -/
def verify_creative_upload (result : Str) : Bool :=
  let p := extract_creative_counts result
  if p.1 < 0 ∨ p.2 < 0 then false
  else decide (p.1 < p.2)

-- ---------------------------------------------------------------------------
-- src/tests/campaign_helpers.py
-- ---------------------------------------------------------------------------

/-- Start marker of the campaign list block. -/
def kClStart : Str := "campaign_list_start".toList

/-- End marker of the campaign list block. -/
def kClEnd : Str := "campaign_list_end".toList

/-- Python `str.strip` (ASCII whitespace). -/
def trim (s : Str) : Str :=
  ((s.dropWhile isWs).reverse.dropWhile isWs).reverse

/-- Split a string on a separator character, Python `str.split(sep)`. -/
def splitOnChar (sep : Char) : Str → List Str
  | [] => [[]]
  | c :: t =>
    if c = sep then [] :: splitOnChar sep t
    else
      match splitOnChar sep t with
      | [] => [[c]]
      | h :: r => (c :: h) :: r

/-- Clean the captured region of a list block: split on newlines, strip each
line, drop empty lines (the list comprehension of `extract_campaign_list`).
Applying this to the raw region between the markers agrees with applying it
to the regex group (`\s*(.*?)\s*` only moves whitespace across the group
edges, and whitespace-only lines are dropped here). -/
def cleanLines (s : Str) : List Str :=
  ((splitOnChar '\n' s).map trim).filter (fun l => !l.isEmpty)

/-- Function `extract_campaign_list` of `campaign_helpers.py`: lowercase the result and
capture between the first `campaign_list_start` and the first subsequent
`campaign_list_end` (the leftmost match of the non-greedy DOTALL pattern);
empty list when either marker is missing. -/
def extract_campaign_list (result : Str) : List Str :=
  let low := strLower result
  match splitFirst kClStart low with
  | none => []
  | some (_, rest) =>
    match splitFirst kClEnd rest with
    | none => []
    | some (mid, _) => cleanLines mid

/-- Function `verify_campaign_in_list` of `campaign_helpers.py`: bidirectional substring
match against each extracted entry, then a raw-transcript fallback. -/
def verify_campaign_in_list (result campaign_name : Str) : Bool :=
  let campaign_list := extract_campaign_list result
  let nameLow := strLower campaign_name
  campaign_list.any (fun c => containsSub c nameLow || containsSub nameLow c)
    || containsSub (strLower result) nameLow

-- ---------------------------------------------------------------------------
-- src/tests/registration_helpers.py
-- ---------------------------------------------------------------------------

/-- Model of `re.search(key + \s*(true|false), s)` on a lowercased transcript:
scan left to right for `key`, skip whitespace, and accept the alternation
`true`/`false` (tried in that order, exactly as the regex alternation). -/
def searchKeyBool (key : Str) : Str → Option Bool
  | [] => none
  | c :: t =>
    if key.isPrefixOf (c :: t) then
      let r := ((c :: t).drop key.length).dropWhile isWs
      if ("true".toList).isPrefixOf r then some true
      else if ("false".toList).isPrefixOf r then some false
      else searchKeyBool key t
    else searchKeyBool key t

/-- Start marker of the registration result block (lowercased form). -/
def kRegStart : Str := "registration_result_start".toList

/-- End marker of the registration result block (lowercased form). -/
def kRegEnd : Str := "registration_result_end".toList

/-- The captured `REGISTRATION_RESULT_START ... REGISTRATION_RESULT_END`
block, case-insensitively (the code lowercases the group; markers are matched
with `re.IGNORECASE`, which over ASCII equals matching the lowercased text).
The substring checks against the group are insensitive to the whitespace the
pattern's `\s*` edges trim, because every needle starts and ends with a
non-whitespace character, so the raw region between the markers is used. -/
def regBlock (result : Str) : Option Str :=
  let low := strLower result
  match splitFirst kRegStart low with
  | none => none
  | some (_, rest) =>
    match splitFirst kRegEnd rest with
    | none => none
    | some (mid, _) => some mid

/-- The two spellings of the login-success line accepted inside the block. -/
def kLoginTrue1 : Str := "login_success: true".toList

/-- Colon-tight spelling of the login-success line. -/
def kLoginTrue2 : Str := "login_success:true".toList

/-- The two spellings of the registration-success line inside the block. -/
def kRegTrue1 : Str := "registration_success: true".toList

/-- Colon-tight spelling of the registration-success line. -/
def kRegTrue2 : Str := "registration_success:true".toList

/-- Key of the standalone login marker, exactly as written in the source
pattern `LOGIN_SUCCESS:\s*(true|false)` — uppercase, although the source
searches it in `result.lower()`, where it can never occur. -/
def kLoginKey : Str := "LOGIN_SUCCESS:".toList

/-- Key of the standalone registration marker, exactly as written in the
source pattern `REGISTRATION_SUCCESS:\s*(true|false)` — uppercase, although
the source searches it in `result.lower()`, where it can never occur. -/
def kRegKey : Str := "REGISTRATION_SUCCESS:".toList

/-- Fallback indicators of a successful login (`verify_login_success`). -/
def loginIndicators : List Str :=
  ["/campaign".toList, "dashboard".toList, "welcome".toList,
   "logged in".toList, "login successful".toList, "campaign list".toList,
   "link your first product".toList, "unlock the power of adwave".toList,
   "registration and login successful".toList]

/-- Function `verify_login_success` of `registration_helpers.py`: block marker
first, then the standalone `LOGIN_SUCCESS: true/false` search — which, as in
the source, looks for the uppercase key inside the lowercased transcript and
therefore can never match — then keyword indicators. -/
def verify_login_success (result : Str) : Bool :=
  let blockHit :=
    match regBlock result with
    | some mid => containsSub mid kLoginTrue1 || containsSub mid kLoginTrue2
    | none => false
  if blockHit then true
  else
    match searchKeyBool kLoginKey (strLower result) with
    | some b => b
    | none => loginIndicators.any (fun k => containsSub (strLower result) k)

/-- The ASCII apostrophe character (code 39). -/
def apos : Char := Char.ofNat 39

/-- Positive fallback keywords of `verify_registration_success`; the last one
reads, with `apos` the apostrophe, as the phrase "let(apos)s start your
journey" of the source. -/
def successKeywords : List Str :=
  ["it is all set".toList, "registration completed".toList,
   "successfully registered".toList, "registration complete".toList,
   "account created".toList,
   "let".toList ++ [apos] ++ "s start your journey".toList]

/-- Negative fallback keywords of `verify_registration_success`. -/
def failureKeywords : List Str :=
  ["failed to receive verification".toList, "registration failed".toList,
   "invalid".toList, "already exists".toList, "email taken".toList,
   "error occurred".toList]

/-- Function `verify_registration_success` of `registration_helpers.py`: block
with both markers true, else the standalone `REGISTRATION_SUCCESS` search —
which, as in the source, looks for the uppercase key inside the lowercased
transcript and therefore can never match — else positive keywords (deferring
to the login check), else negative keywords force false, else false. -/
def verify_registration_success (result : Str) : Bool :=
  let blockOk :=
    match regBlock result with
    | some mid =>
      (containsSub mid kRegTrue1 || containsSub mid kRegTrue2)
        && (containsSub mid kLoginTrue1 || containsSub mid kLoginTrue2)
    | none => false
  if blockOk then true
  else
    match searchKeyBool kRegKey (strLower result) with
    | some b => if b then verify_login_success result else false
    | none =>
      let low := strLower result
      if successKeywords.any (fun k => containsSub low k) then
        verify_login_success result
      else if failureKeywords.any (fun k => containsSub low k) then false
      else false

-- ---------------------------------------------------------------------------
-- src/core/reporter.py
-- ---------------------------------------------------------------------------

/-- The `Checkpoint` dataclass of `reporter.py` (the optional screenshot is an
opaque payload and is omitted; `details` defaults to empty). -/
structure Checkpoint where
  step : Nat
  name : Str
  status : String
  details : Str := []
  deriving DecidableEq

/-- One attempt of the pattern `STEP\s+(\d+):\s*([^\n]+)` (IGNORECASE) anchored
at the start of `s`: the literal `STEP` in any case, at least one whitespace
character, a greedy digit run, a colon, then `\s*([^\n]+)` — greedily skip
whitespace (newlines included) and capture to the end of the line; when only
whitespace remains, the regex backtracks `\s*` to the last non-newline
character and captures just it.  Returns the step number, the raw captured
name and the remaining text after the match. -/
def tryStep (s : Str) : Option (Nat × Str × Str) :=
  if strLower (s.take 4) = "step".toList then
    let r1 := s.drop 4
    let w := (r1.takeWhile isWs).length
    if w = 0 then none
    else
      let r2 := r1.drop w
      let ds := r2.takeWhile Char.isDigit
      if ds.isEmpty then none
      else
        let r3 := r2.drop ds.length
        match r3 with
        | ':' :: r4 =>
          let i := (r4.takeWhile isWs).length
          if i < r4.length then
            let nm := (r4.drop i).takeWhile (fun c => c ≠ '\n')
            some (digitsToNat ds, nm, r4.drop (i + nm.length))
          else
            let k := (r4.reverse.takeWhile (fun c => c = '\n')).length
            if k = r4.length then none
            else
              let j := r4.length - k - 1
              some (digitsToNat ds, (r4.drop j).take 1, r4.drop (j + 1))
        | _ => none
  else none

/-- Fueled scan of `re.findall` for the step pattern: try a match at every
position left to right, resuming after the end of each match.  Each successful
match consumes at least one character, so fuel equal to the text length is
never exhausted. -/
def findStepsAux : Nat → Str → List (Nat × Str)
  | 0, _ => []
  | Nat.succ f, s =>
    match s with
    | [] => []
    | c :: t =>
      match tryStep (c :: t) with
      | some (n, nm, rest) => (n, nm) :: findStepsAux f rest
      | none => findStepsAux f t

/-- All matches of `STEP\s+(\d+):\s*([^\n]+)` in the prompt, in text order. -/
def findSteps (s : Str) : List (Nat × Str) := findStepsAux s.length s

/-- Clean a step name: `name.strip().rstrip(':').strip()`. -/
def cleanName (nm : Str) : Str :=
  trim (((trim nm).reverse.dropWhile (fun c => c = ':')).reverse)

/-- The deduplication loop of `extract_checkpoints_from_prompt`: keep the
first occurrence of every step number, cleaning each kept name. -/
def dedupSteps : List (Nat × Str) → List Nat → List (Nat × Str)
  | [], _ => []
  | (n, nm) :: t, seen =>
    if n ∈ seen then dedupSteps t seen
    else (n, cleanName nm) :: dedupSteps t (n :: seen)

/-- Stable insertion of one step by ascending step number. -/
def insertStep (x : Nat × Str) : List (Nat × Str) → List (Nat × Str)
  | [] => [x]
  | y :: ys => if x.1 ≤ y.1 then x :: y :: ys else y :: insertStep x ys

/-- Python `steps.sort` keyed on the step number: stable sort ascending by step number. -/
def sortSteps (l : List (Nat × Str)) : List (Nat × Str) :=
  l.foldr insertStep []

/-- Function `extract_checkpoints_from_prompt` of `reporter.py`: find all step
declarations, deduplicate by number keeping the first, sort ascending. -/
def extract_checkpoints_from_prompt (prompt : Str) : List (Nat × Str) :=
  sortSteps (dedupSteps (findSteps prompt) [])

/-- The status assignment of the loop of `get_checkpoints_for_test`, given the
overall verdict, the last step reached, the number of declared steps and the
step's own number. -/
def checkpointStatus (test_passed : Bool) (last_step : Int) (total : Nat)
    (step_num : Nat) : String :=
  if test_passed then "passed"
  else if last_step > 0 then
    if (step_num : Int) < last_step then "passed"
    else if (step_num : Int) = last_step then "failed"
    else "skipped"
  else if step_num = total then "failed"
  else "passed"

/-- The checkpoint-building loop of `get_checkpoints_for_test` (lines 808-835):
map every declared step to a `Checkpoint` with its assigned status. -/
def buildCheckpoints (steps : List (Nat × Str)) (test_passed : Bool)
    (last_step : Int) : List Checkpoint :=
  steps.map (fun p =>
    { step := p.1, name := p.2
      status := checkpointStatus test_passed last_step steps.length p.1 })

/-- Function `_get_fallback_steps` of `reporter.py`: the generic four steps (the
`test_name` argument is accepted and ignored by the source). -/
def get_fallback_steps (test_name : Str) : List (Nat × Str) :=
  [(1, "Login".toList), (2, "Navigate".toList),
   (3, "Execute Task".toList), (4, "Verify Result".toList)]

/-- Function `get_checkpoints_for_test` of `reporter.py`: extract steps from the prompt
when one is given and non-empty (Python truthiness of `if prompt:`), fall back
to the generic steps when there is no prompt or extraction finds nothing, then
build the status-bearing checkpoints. -/
def get_checkpoints_for_test (test_name : Str) (test_passed : Bool)
    (last_step : Int) (prompt : Option Str) : List Checkpoint :=
  let steps :=
    match prompt with
    | some p =>
      if p ≠ ([] : Str) then
        let s := extract_checkpoints_from_prompt p
        if s ≠ [] then s else get_fallback_steps test_name
      else get_fallback_steps test_name
    | none => get_fallback_steps test_name
  buildCheckpoints steps test_passed last_step

/-- The `TestResult` dataclass of `reporter.py` (screenshots and the optional
error analysis are opaque payloads and omitted; `duration` is modelled as an
exact rational). -/
structure TestResult where
  name : Str
  module : Str
  status : String
  duration : ℚ
  error_message : Str := []
  checkpoints : List Checkpoint := []

/-- The `TestReport` dataclass of `reporter.py` (timestamps are opaque and
omitted; the claims concern the computed properties over `results`). -/
structure TestReport where
  title : String := "AdWave Test Report"
  environment : String := "production"
  llm_provider : String := ""
  llm_model : String := ""
  results : List TestResult := []

/-- Property `TestReport.total_tests`. -/
def TestReport.total_tests (r : TestReport) : Nat := r.results.length

/-- Property `TestReport.passed_tests`: results whose status is `passed`. -/
def TestReport.passed_tests (r : TestReport) : Nat :=
  (r.results.filter (fun t => t.status == "passed")).length

/-- Property `TestReport.failed_tests`: results whose status is `failed` or `error`. -/
def TestReport.failed_tests (r : TestReport) : Nat :=
  (r.results.filter (fun t => t.status == "failed" || t.status == "error")).length

/-- Property `TestReport.pass_rate`: `passed / total * 100`, and `0.0` on an empty
report; the Python float division is modelled as exact rational division. -/
def TestReport.pass_rate (r : TestReport) : ℚ :=
  if r.total_tests = 0 then 0
  else ((r.passed_tests : ℚ) / (r.total_tests : ℚ)) * 100

/-- Rounding to one decimal, as the report template's one-decimal rendering. -/
def roundTenth (q : ℚ) : ℚ := (round (q * 10) : ℤ) / 10

/-- A three-result report with two passes, the spec's pass-rate example. -/
def exReport23 : TestReport :=
  { results :=
      [{ name := [], module := [], status := "passed", duration := 0 },
       { name := [], module := [], status := "passed", duration := 0 },
       { name := [], module := [], status := "failed", duration := 0 }] }


-- ---------------------------------------------------------------------------
-- Theorems
-- ---------------------------------------------------------------------------

/-- C1: the count-delta upload verdict is true exactly when both the before
and the after count markers are extractable from the transcript and the after
count is strictly greater than the before count; a missing count (the `-1`
sentinel of `extract_creative_counts`) forces a false verdict, and no keyword
fallback exists in the verdict. -/
theorem creative_upload_count_delta (r : Str) :
    verify_creative_upload r = true ↔
      ∃ b a : Nat, searchKeyNum kBefore (strLower r) = some b ∧
        searchKeyNum kAfter (strLower r) = some a ∧ b < a := by
  unfold verify_creative_upload extract_creative_counts
  cases hb : searchKeyNum kBefore (strLower r) with
  | none => simp [hb]
  | some b =>
    cases ha : searchKeyNum kAfter (strLower r) with
    | none => simp [hb, ha]
    | some a =>
      have h1 : ¬(((b : Int) < 0) ∨ ((a : Int) < 0)) := by omega
      simp only [hb, ha, h1, if_false, decide_eq_true_eq, Option.some.injEq]
      constructor
      · intro h
        exact ⟨b, a, rfl, rfl, by omega⟩
      · rintro ⟨b', a', hb', ha', hlt⟩
        omega

/-- Witness for C1 on the spec's `before=2, after=5` example. -/
theorem creative_upload_count_delta_witness :
    verify_creative_upload ("CREATIVE_COUNT_BEFORE: 2 CREATIVE_COUNT_AFTER: 5".toList) = true :=
  (creative_upload_count_delta _).mpr ⟨2, 5, by decide, by decide, by decide⟩

/-- C2: checkpoint synthesis with a known outcome.  When the test passed every
declared step is `passed` whatever the last-step value is; when it failed with
`last_step > 0`, steps below the last step are `passed`, the step equal to it
is `failed`, and steps above it are `skipped`. -/
theorem checkpoints_known_outcome (steps : List (Nat × Str)) (ls : Int) :
    buildCheckpoints steps true ls =
      steps.map (fun p => ⟨p.1, p.2, "passed", []⟩) ∧
    (ls > 0 → buildCheckpoints steps false ls =
      steps.map (fun p =>
        ⟨p.1, p.2,
          if (p.1 : Int) < ls then "passed"
          else if (p.1 : Int) = ls then "failed" else "skipped", []⟩)) := by
  constructor
  · simp [buildCheckpoints, checkpointStatus]
  · intro h
    unfold buildCheckpoints
    apply List.map_congr_left
    intro p _
    simp [checkpointStatus, h]

/-- Witness for C2 on the spec's four-step example with `last_step = 2`. -/
theorem checkpoints_known_outcome_witness :
    (buildCheckpoints
        [(1, "Login".toList), (2, "Nav".toList), (3, "Create".toList), (4, "Verify".toList)]
        false 2).map Checkpoint.status = ["passed", "failed", "skipped", "skipped"] := by
  rw [(checkpoints_known_outcome
    [(1, "Login".toList), (2, "Nav".toList), (3, "Create".toList), (4, "Verify".toList)] 2).2
    (by decide)]
  decide

/-- C3 counterexample: a prompt declaring steps 1 and 3 (a non-empty
declaration sequence), with a failed test and unknown failure point, yields
checkpoints where the final declared step (number 3) is `passed` and no step
at all is `failed` — the code compares each step number against the count of
declared steps (here 2), not against the greatest declared number. -/
theorem checkpoints_unknown_failure_cex :
    get_checkpoints_for_test [] false 0 (some ("STEP 1: a\nSTEP 3: b".toList)) =
      [⟨1, "a".toList, "passed", []⟩, ⟨3, "b".toList, "passed", []⟩] := by
  decide

/-- C3 amended: with a failed test and unknown failure point, the step whose
number equals the COUNT of declared steps is `failed` and every other step is
`passed`; when the declared numbers are exactly 1..n this is the final
declared step, and when no declared number equals the count no step is marked
`failed`. -/
theorem checkpoints_unknown_failure_amended (steps : List (Nat × Str))
    (h : steps ≠ []) :
    buildCheckpoints steps false 0 =
      steps.map (fun p =>
        ⟨p.1, p.2, if p.1 = steps.length then "failed" else "passed", []⟩) := by
  unfold buildCheckpoints
  apply List.map_congr_left
  intro p _
  simp [checkpointStatus]

/-- Witness for the amended C3 on the declarations `[(1, a), (3, b)]`. -/
theorem checkpoints_unknown_failure_amended_witness :
    (buildCheckpoints [(1, "a".toList), (3, "b".toList)] false 0).map Checkpoint.status =
      ["passed", "passed"] := by
  rw [checkpoints_unknown_failure_amended [(1, "a".toList), (3, "b".toList)] (by decide)]
  decide

/-- C4 counterexample: the prompt "no steps here" yields zero extracted step
declarations, yet `get_checkpoints_for_test` returns the four generic fallback
checkpoints rather than an empty sequence — synthetic steps ARE invented. -/
theorem checkpoints_empty_extraction_cex :
    extract_checkpoints_from_prompt ("no steps here".toList) = [] ∧
    get_checkpoints_for_test [] true 0 (some ("no steps here".toList)) =
      [⟨1, "Login".toList, "passed", []⟩, ⟨2, "Navigate".toList, "passed", []⟩,
       ⟨3, "Execute Task".toList, "passed", []⟩,
       ⟨4, "Verify Result".toList, "passed", []⟩] := by
  exact ⟨by decide, by decide⟩

/-- C4 amended: the synthesis loop itself yields an empty checkpoint sequence
on an empty declaration sequence, but `get_checkpoints_for_test` substitutes
the generic four-step fallback whenever extraction from a non-empty prompt
finds zero declarations, so such prompts yield the fallback checkpoints. -/
theorem checkpoints_empty_extraction_amended (tn : Str) (tp : Bool) (ls : Int)
    (p : Str) (hp : p ≠ []) (he : extract_checkpoints_from_prompt p = []) :
    buildCheckpoints [] tp ls = [] ∧
    get_checkpoints_for_test tn tp ls (some p) =
      buildCheckpoints (get_fallback_steps tn) tp ls := by
  refine ⟨rfl, ?_⟩
  unfold get_checkpoints_for_test
  simp [hp, he]

/-- Witness for the amended C4 on the prompt "no steps here". -/
theorem checkpoints_empty_extraction_amended_witness :
    buildCheckpoints [] true 0 = [] ∧
    get_checkpoints_for_test [] true 0 (some ("no steps here".toList)) =
      buildCheckpoints (get_fallback_steps []) true 0 :=
  checkpoints_empty_extraction_amended [] true 0 ("no steps here".toList)
    (by decide) (by decide)

/-- C6: the list-membership verdict is true exactly when the lowercased
expected name is a substring of some extracted entry, or some extracted entry
is a substring of the lowercased expected name, or the lowercased expected
name occurs anywhere in the lowercased raw transcript. -/
theorem campaign_in_list_iff (result campaign_name : Str) :
    verify_campaign_in_list result campaign_name = true ↔
      ((∃ c ∈ extract_campaign_list result,
          containsSub c (strLower campaign_name) = true)
        ∨ (∃ c ∈ extract_campaign_list result,
          containsSub (strLower campaign_name) c = true)
        ∨ containsSub (strLower result) (strLower campaign_name) = true) := by
  unfold verify_campaign_in_list
  simp only [Bool.or_eq_true, List.any_eq_true, Bool.or_eq_true]
  constructor
  · rintro (⟨c, hc, h | h⟩ | h)
    · exact Or.inl ⟨c, hc, h⟩
    · exact Or.inr (Or.inl ⟨c, hc, h⟩)
    · exact Or.inr (Or.inr h)
  · rintro (⟨c, hc, h⟩ | ⟨c, hc, h⟩ | h)
    · exact Or.inl ⟨c, hc, Or.inl h⟩
    · exact Or.inl ⟨c, hc, Or.inr h⟩
    · exact Or.inr h

/-- Witness for C6: a truncation-tolerant match where the prefix entry of the
displayed list is a substring of the longer expected name. -/
theorem campaign_in_list_iff_witness :
    verify_campaign_in_list
      ("CAMPAIGN_LIST_START\n143210_20250119_t\nCAMPAIGN_LIST_END".toList)
      ("143210_20250119_test".toList) = true :=
  (campaign_in_list_iff _ _).mpr
    (Or.inr (Or.inl ⟨"143210_20250119_t".toList, by decide, by decide⟩))

/-- C9: the pass rate is 0 on an empty report (no division error) and
`passed / total * 100` otherwise; on 2 passed of 3 total it is `200 / 3`,
which renders as `66.7` at one decimal. -/
theorem report_pass_rate (r : TestReport) :
    (r.total_tests = 0 → r.pass_rate = 0) ∧
    (r.total_tests ≠ 0 →
      r.pass_rate = ((r.passed_tests : ℚ) / (r.total_tests : ℚ)) * 100) ∧
    exReport23.pass_rate = 200 / 3 ∧
    roundTenth exReport23.pass_rate = 667 / 10 := by
  have hp : exReport23.passed_tests = 2 := by decide
  have ht : exReport23.total_tests = 3 := by decide
  have hrate : exReport23.pass_rate = 200 / 3 := by
    rw [TestReport.pass_rate, hp, ht]
    norm_num
  refine ⟨?_, ?_, hrate, ?_⟩
  · intro h
    simp [TestReport.pass_rate, h]
  · intro h
    simp [TestReport.pass_rate, h]
  · rw [hrate, roundTenth]
    have : round ((200 : ℚ) / 3 * 10) = 667 := by
      rw [round_eq]
      apply Int.floor_eq_iff.mpr
      constructor <;> norm_num
    rw [this]
    norm_num

/-- Witness for C9 on the empty report and the two-of-three report. -/
theorem report_pass_rate_witness :
    TestReport.pass_rate { results := [] } = 0 ∧
    exReport23.pass_rate = ((exReport23.passed_tests : ℚ) / (exReport23.total_tests : ℚ)) * 100 :=
  ⟨(report_pass_rate { results := [] }).1 rfl,
   (report_pass_rate exReport23).2.1 (by decide)⟩

/-- Predicate `containsSub` decides the infix (substring) relation. -/
theorem containsSub_iff_infix (h n : Str) : containsSub h n = true ↔ n <:+: h := by
  induction h with
  | nil => simp [containsSub, List.isEmpty_iff]
  | cons c t ih =>
    simp [containsSub, List.isPrefixOf_iff_prefix, ih, List.infix_cons_iff]

/-- Search `splitFirst` fails exactly when the marker does not occur. -/
theorem splitFirst_eq_none_iff (m s : Str) :
    splitFirst m s = none ↔ containsSub s m = false := by
  induction s with
  | nil => cases hm : m.isEmpty <;> simp [splitFirst, containsSub, hm, List.isEmpty_iff] at *
  | cons c t ih =>
    cases hp : m.isPrefixOf (c :: t) with
    | true => simp [splitFirst, containsSub, hp]
    | false =>
      cases hsp : splitFirst m t <;>
        simp [splitFirst, containsSub, hp, hsp, ← ih]

/-- Search `splitFirst` returns the split at a marker occurrence whenever no earlier
occurrence exists: any occurrence starting before `pre.length` would lie
entirely inside `pre ++ m.dropLast`. -/
theorem splitFirst_append (m suf : Str) (hm : m ≠ []) :
    ∀ pre : Str, containsSub (pre ++ m.dropLast) m = false →
      splitFirst m (pre ++ (m ++ suf)) = some (pre, suf) := by
  intro pre
  induction pre with
  | nil =>
    intro _
    match m, hm with
    | a :: m', _ =>
      have hpre : (a :: m').isPrefixOf ((a :: m') ++ suf) = true :=
        List.isPrefixOf_iff_prefix.mpr (List.prefix_append _ _)
      simp only [List.nil_append, List.cons_append] at hpre ⊢
      simp only [splitFirst, hpre, if_true]
      simp [List.drop_left]
  | cons c pre' ih =>
    intro h
    have hlast := List.dropLast_append_getLast hm
    have hsplit : containsSub ((c :: pre') ++ m.dropLast) m = false := by
      simpa [List.cons_append] using h
    have h1 : m.isPrefixOf (c :: (pre' ++ m.dropLast)) = false := by
      have := hsplit
      simp only [List.cons_append, containsSub, Bool.or_eq_false_iff] at this
      exact this.1
    have h2 : containsSub (pre' ++ m.dropLast) m = false := by
      have := hsplit
      simp only [List.cons_append, containsSub, Bool.or_eq_false_iff] at this
      exact this.2
    have h2p : c :: (pre' ++ m.dropLast) <+: c :: (pre' ++ (m ++ suf)) := by
      rw [List.cons_prefix_cons]
      refine ⟨rfl, ?_⟩
      have hdec : pre' ++ (m ++ suf) = (pre' ++ m.dropLast) ++ ([m.getLast hm] ++ suf) := by
        conv_lhs => rw [← hlast]
        simp [List.append_assoc]
      rw [hdec]
      exact List.prefix_append _ _
    have hlen : m.length ≤ (c :: (pre' ++ m.dropLast)).length := by
      have hpos : 0 < m.length := List.length_pos.mpr hm
      simp [List.length_dropLast]
      omega
    have hnp : m.isPrefixOf (c :: (pre' ++ (m ++ suf))) = false := by
      cases hx : m.isPrefixOf (c :: (pre' ++ (m ++ suf))) with
      | false => rfl
      | true =>
        have hpref : m <+: c :: (pre' ++ (m ++ suf)) :=
          List.isPrefixOf_iff_prefix.mp hx
        have hmm : m <+: c :: (pre' ++ m.dropLast) :=
          List.prefix_of_prefix_length_le hpref h2p hlen
        have : m.isPrefixOf (c :: (pre' ++ m.dropLast)) = true :=
          List.isPrefixOf_iff_prefix.mpr hmm
        rw [this] at h1
        cases h1
    show splitFirst m ((c :: pre') ++ (m ++ suf)) = some (c :: pre', suf)
    simp only [List.cons_append]
    simp only [splitFirst, hnp, if_false, Bool.false_eq_true]
    rw [ih h2]

/-- C7: well-formed block extraction.  For every transcript whose lowercased
form decomposes as text, then the first occurrence of `campaign_list_start`,
then a region, then the first subsequent `campaign_list_end` (the
no-earlier-occurrence hypotheses), the extractor returns exactly the region's
lines, trimmed, with empty lines dropped, in order.  The hypotheses are on
the lowercased transcript, so the markers may appear in any case. -/
theorem extract_campaign_list_wf (t pre mid post : Str)
    (hs : strLower t = pre ++ (kClStart ++ (mid ++ (kClEnd ++ post))))
    (h1 : containsSub (pre ++ kClStart.dropLast) kClStart = false)
    (h2 : containsSub (mid ++ kClEnd.dropLast) kClEnd = false) :
    extract_campaign_list t = cleanLines mid := by
  simp only [extract_campaign_list]
  rw [hs]
  rw [splitFirst_append kClStart (mid ++ (kClEnd ++ post)) (by decide) pre h1]
  dsimp only
  rw [splitFirst_append kClEnd post (by decide) mid h2]

/-- Witness for C7: a mixed-case well-formed block with lines `a` and `b`. -/
theorem extract_campaign_list_wf_witness :
    extract_campaign_list
        ("xx Campaign_List_START\n a \n b \ncampaign_LIST_END yy".toList) =
      ["a".toList, "b".toList] :=
  (extract_campaign_list_wf
      ("xx Campaign_List_START\n a \n b \ncampaign_LIST_END yy".toList)
      ("xx ".toList) ("\n a \n b \n".toList) (" yy".toList)
      (by decide) (by decide) (by decide)).trans (by decide)

/-- C8: when the start marker occurs (the leftmost occurrence splitting the
lowercased transcript) but no end marker follows it, extraction returns the
empty sequence — never a partial capture; the extractor is a total function,
so no input can make it raise. -/
theorem extract_campaign_list_no_end (t b rest : Str)
    (h1 : splitFirst kClStart (strLower t) = some (b, rest))
    (h2 : containsSub rest kClEnd = false) :
    extract_campaign_list t = [] := by
  simp only [extract_campaign_list, h1]
  rw [(splitFirst_eq_none_iff kClEnd rest).mpr h2]

/-- Witness for C8: a transcript with a start marker and no end marker. -/
theorem extract_campaign_list_no_end_witness :
    extract_campaign_list ("CAMPAIGN_LIST_START\n a \n b".toList) = [] :=
  extract_campaign_list_no_end ("CAMPAIGN_LIST_START\n a \n b".toList)
    [] ("\n a \n b".toList) (by decide) (by decide)

/-- Evaluation of `Char.ofNat` below the surrogate range. -/
theorem char_toNat_ofNat (n : Nat) (h : n < 55296) : (Char.ofNat n).toNat = n := by
  have hv : n.isValidChar := Or.inl h
  simp only [Char.ofNat]
  rw [dif_pos hv]
  rfl

/-- Python lowercasing never outputs an uppercase ASCII letter. -/
theorem pyLower_ne_upper (d c : Char) (hc1 : 'A' ≤ c) (hc2 : c ≤ 'Z') :
    pyLower d ≠ c := by
  unfold pyLower
  by_cases h : 'A' ≤ d ∧ d ≤ 'Z'
  · rw [if_pos h]
    intro he
    have hd1 : 65 ≤ d.toNat := by
      have h2 : 'A'.val ≤ d.val := h.1
      rw [UInt32.le_def, BitVec.le_def] at h2
      exact h2
    have hd2 : d.toNat ≤ 90 := by
      have h2 : d.val ≤ 'Z'.val := h.2
      rw [UInt32.le_def, BitVec.le_def] at h2
      exact h2
    have hc2' : c.toNat ≤ 90 := by
      have h2 : c.val ≤ 'Z'.val := hc2
      rw [UInt32.le_def, BitVec.le_def] at h2
      exact h2
    have hofn : (Char.ofNat (d.toNat + 32)).toNat = d.toNat + 32 :=
      char_toNat_ofNat _ (by omega)
    rw [he] at hofn
    omega
  · rw [if_neg h]
    intro he
    exact h (he ▸ ⟨hc1, hc2⟩)

/-- No uppercase ASCII letter occurs in a lowercased transcript. -/
theorem strLower_not_mem_upper (r : Str) (c : Char) (hc1 : 'A' ≤ c)
    (hc2 : c ≤ 'Z') : c ∉ strLower r := by
  intro hmem
  obtain ⟨d, _, hd⟩ := List.mem_map.mp hmem
  exact pyLower_ne_upper d c hc1 hc2 hd

/-- The key-value search fails whenever the key's first character does not
occur in the text at all. -/
theorem searchKeyBool_head_not_mem (k0 : Char) (krest : Str) :
    ∀ s : Str, k0 ∉ s → searchKeyBool (k0 :: krest) s = none := by
  intro s
  induction s with
  | nil => intro _; rfl
  | cons c t ih =>
    intro hnm
    have hne : k0 ≠ c := fun he => hnm (by rw [he]; exact List.mem_cons_self c t)
    have hpf : (k0 :: krest).isPrefixOf (c :: t) = false := by
      cases hx : (k0 :: krest).isPrefixOf (c :: t) with
      | false => rfl
      | true =>
        have hp := List.isPrefixOf_iff_prefix.mp hx
        rw [List.cons_prefix_cons] at hp
        exact absurd hp.1 hne
    simp only [searchKeyBool, hpf, Bool.false_eq_true, if_false]
    exact ih (fun hm => hnm (List.mem_cons_of_mem c hm))

/-- C5 (code bug): the standalone-marker tier of the registration cascade is
dead code.  The source patterns `REGISTRATION_SUCCESS:\s*(true|false)` and
`LOGIN_SUCCESS:\s*(true|false)` (registration_helpers.py lines 125 and 73)
are uppercase yet searched inside `result.lower()`, so they can never match
any transcript.  Consequently a transcript carrying both standalone markers
as true is judged false by the code, against the claim's (and the source
docstring's) standalone-marker tier, and a transcript with
`LOGIN_SUCCESS: false` plus a fallback keyword is judged a login success
although the claim's cascade would read the explicit marker as final. -/
theorem registration_marker_tier_dead (r : Str) :
    searchKeyBool kRegKey (strLower r) = none ∧
    searchKeyBool kLoginKey (strLower r) = none ∧
    verify_registration_success
      ("REGISTRATION_SUCCESS: true LOGIN_SUCCESS: true".toList) = false ∧
    verify_login_success ("LOGIN_SUCCESS: false dashboard".toList) = true := by
  refine ⟨?_, ?_, by decide, by decide⟩
  · have hk : kRegKey = 'R' :: "EGISTRATION_SUCCESS:".toList := by decide
    rw [hk]
    exact searchKeyBool_head_not_mem _ _ (strLower r)
      (strLower_not_mem_upper r 'R' (by decide) (by decide))
  · have hk : kLoginKey = 'L' :: "OGIN_SUCCESS:".toList := by decide
    rw [hk]
    exact searchKeyBool_head_not_mem _ _ (strLower r)
      (strLower_not_mem_upper r 'L' (by decide) (by decide))

/-- Witness for C5 evaluating the dead standalone search and the divergent
verdicts at concrete transcripts. -/
theorem registration_marker_tier_dead_witness :
    searchKeyBool kRegKey (strLower ("REGISTRATION_SUCCESS: true".toList)) = none ∧
    verify_registration_success
      ("REGISTRATION_SUCCESS: true LOGIN_SUCCESS: true".toList) = false :=
  ⟨(registration_marker_tier_dead ("REGISTRATION_SUCCESS: true".toList)).1,
   (registration_marker_tier_dead []).2.2.1⟩

/-- Insertion keeps the multiset of steps. -/
theorem insertStep_perm (x : Nat × Str) (l : List (Nat × Str)) :
    List.Perm (insertStep x l) (x :: l) := by
  induction l with
  | nil => rfl
  | cons y ys ih =>
    by_cases hxy : x.1 ≤ y.1
    · simp [insertStep, hxy]
    · simp only [insertStep, hxy, if_false]
      exact (ih.cons y).trans (List.Perm.swap x y ys)

/-- The stable sort is a permutation of its input. -/
theorem sortSteps_perm (l : List (Nat × Str)) : List.Perm (sortSteps l) l := by
  induction l with
  | nil => rfl
  | cons x t ih =>
    exact (insertStep_perm x (sortSteps t)).trans (ih.cons x)

/-- The deduplication loop yields pairwise-distinct step numbers, all of them
outside the `seen` accumulator. -/
theorem dedupSteps_keys (l : List (Nat × Str)) :
    ∀ seen : List Nat, ((dedupSteps l seen).map Prod.fst).Nodup ∧
      ∀ n ∈ (dedupSteps l seen).map Prod.fst, n ∉ seen := by
  induction l with
  | nil => intro seen; simp [dedupSteps]
  | cons p t ih =>
    intro seen
    obtain ⟨n, nm⟩ := p
    by_cases hn : n ∈ seen
    · simp only [dedupSteps, hn, if_true]
      exact ih seen
    · simp only [dedupSteps, hn, if_false]
      obtain ⟨ihn, ihs⟩ := ih (n :: seen)
      constructor
      · simp only [List.map_cons, List.nodup_cons]
        refine ⟨fun hmem => (ihs n hmem) (List.mem_cons_self n seen), ihn⟩
      · intro k hk
        simp only [List.map_cons, List.mem_cons] at hk
        rcases hk with rfl | hk
        · exact hn
        · exact fun hks => (ihs k hk) (List.mem_cons_of_mem n hks)

/-- Step numbers extracted from a prompt are pairwise distinct. -/
theorem extract_keys_nodup (p : Str) :
    ((extract_checkpoints_from_prompt p).map Prod.fst).Nodup := by
  unfold extract_checkpoints_from_prompt
  exact ((sortSteps_perm (dedupSteps (findSteps p) [])).map Prod.fst).nodup_iff.mpr
    (dedupSteps_keys (findSteps p) []).1

/-- With pairwise-distinct step numbers, at most one step can carry any given
number. -/
theorem countP_le_one_of_keys_nodup (steps : List (Nat × Str))
    (hn : (steps.map Prod.fst).Nodup) (c : Int) :
    steps.countP (fun p => ((p.1 : Int) == c)) ≤ 1 := by
  induction steps with
  | nil => simp
  | cons p t ih =>
    simp only [List.map_cons, List.nodup_cons] at hn
    rw [List.countP_cons]
    by_cases hp : (((p.1 : Nat) : Int) == c) = true
    · have hzero : t.countP (fun q => ((q.1 : Int) == c)) = 0 := by
        rw [List.countP_eq_zero]
        intro q hq hqc
        have h1 : (q.1 : Int) = c := by simpa using hqc
        have h2 : (p.1 : Int) = c := by simpa using hp
        have hq1 : q.1 = p.1 := by omega
        exact hn.1 (by rw [← hq1]; exact List.mem_map_of_mem Prod.fst hq)
      simp [hp, hzero]
    · simpa [hp] using ih hn.2

/-- Every assigned checkpoint status is one of the three reported ones. -/
theorem checkpointStatus_cases (tp : Bool) (ls : Int) (total n : Nat) :
    checkpointStatus tp ls total n = "passed" ∨
    checkpointStatus tp ls total n = "failed" ∨
    checkpointStatus tp ls total n = "skipped" := by
  unfold checkpointStatus
  split_ifs <;> simp

/-- The synthesis loop, run on declarations with pairwise-distinct numbers,
emits at most one `failed` checkpoint and only the three known statuses. -/
theorem build_invariants (steps : List (Nat × Str))
    (hn : (steps.map Prod.fst).Nodup) (tp : Bool) (ls : Int) :
    (buildCheckpoints steps tp ls).countP (fun cp => cp.status == "failed") ≤ 1 ∧
    (buildCheckpoints steps tp ls).all
      (fun cp => cp.status == "passed" || cp.status == "failed"
        || cp.status == "skipped") = true := by
  constructor
  · unfold buildCheckpoints
    rw [List.countP_map]
    by_cases htp : tp = true
    · refine le_trans (List.countP_mono_left ?_)
        (countP_le_one_of_keys_nodup steps hn 0)
      intro p _ hfp
      simp only [Function.comp_apply, checkpointStatus, htp, if_true] at hfp
      exact absurd hfp (by decide)
    · have htp' : tp = false := by simpa using htp
      by_cases hls : ls > 0
      · refine le_trans (List.countP_mono_left ?_)
          (countP_le_one_of_keys_nodup steps hn ls)
        intro p _ hfp
        simp only [Function.comp_apply, checkpointStatus, htp', hls,
          Bool.false_eq_true, if_false, if_true] at hfp
        by_cases hlt : (p.1 : Int) < ls
        · rw [if_pos hlt] at hfp
          exact absurd hfp (by decide)
        · rw [if_neg hlt] at hfp
          by_cases heq : (p.1 : Int) = ls
          · simpa using heq
          · rw [if_neg heq] at hfp
            exact absurd hfp (by decide)
      · refine le_trans (List.countP_mono_left ?_)
          (countP_le_one_of_keys_nodup steps hn (steps.length : Int))
        intro p _ hfp
        simp only [Function.comp_apply, checkpointStatus, htp', hls,
          Bool.false_eq_true, if_false] at hfp
        by_cases heq : p.1 = steps.length
        · simpa using congrArg (fun k : Nat => (k : Int)) heq
        · rw [if_neg heq] at hfp
          exact absurd hfp (by decide)
  · rw [List.all_eq_true]
    intro cp hcp
    unfold buildCheckpoints at hcp
    obtain ⟨p, _, rfl⟩ := List.mem_map.mp hcp
    rcases checkpointStatus_cases tp ls steps.length p.1 with h | h | h <;>
      simp [h]

/-- C10: for every input, the checkpoint list of `get_checkpoints_for_test`
holds at most one `failed` checkpoint, and every status is one of `passed`,
`failed`, `skipped` — the `in_progress` status named in the `Checkpoint`
docstring is never produced. -/
theorem checkpoint_single_failure (tn : Str) (tp : Bool) (ls : Int)
    (pr : Option Str) :
    (get_checkpoints_for_test tn tp ls pr).countP
      (fun cp => cp.status == "failed") ≤ 1 ∧
    (get_checkpoints_for_test tn tp ls pr).all
      (fun cp => cp.status == "passed" || cp.status == "failed"
        || cp.status == "skipped") = true := by
  have hfb : ((get_fallback_steps tn).map Prod.fst).Nodup := by
    unfold get_fallback_steps
    decide
  simp only [get_checkpoints_for_test]
  cases pr with
  | none => exact build_invariants _ hfb tp ls
  | some p =>
    dsimp only
    by_cases hp : p ≠ ([] : Str)
    · rw [if_pos hp]
      by_cases hs : extract_checkpoints_from_prompt p ≠ []
      · rw [if_pos hs]
        exact build_invariants _ (extract_keys_nodup p) tp ls
      · rw [if_neg hs]
        exact build_invariants _ hfb tp ls
    · rw [if_neg hp]
      exact build_invariants _ hfb tp ls

/-- Witness for C10 at a concrete failing test with a gap-numbered prompt. -/
theorem checkpoint_single_failure_witness :
    (get_checkpoints_for_test [] false 2
        (some ("STEP 1: a\nSTEP 3: b".toList))).countP
      (fun cp => cp.status == "failed") ≤ 1 :=
  (checkpoint_single_failure [] false 2 (some ("STEP 1: a\nSTEP 3: b".toList))).1

